import Mathlib

/-!
Verification of the GNSS-SDR telemetry relay server.

Shallow embedding of the ingestion → state → fan-out pipeline:
  * `server/state.js`   — TTL-bounded state store (`setLatestPvt`,
    `updateLatestObservables`, `getLatestPvt`, `getLatestObservables`,
    `getLatestObservablesMeta`);
  * `server/udp_handlers.js` — the two UDP ingress handlers
    (`handleObsUdp`, `handlePvtUdp`);
  * `server/websocket.js` — the `broadcast` fan-out;
  * `server/server.js`  — the `/api/latest/observables` route.

Wall-clock reads (`Date.now()`) are passed as an explicit `now : Nat`
(milliseconds).  JavaScript numbers used as timestamps/ids are modelled as
`Nat`, float-valued telemetry fields as `Int` (only compared/copied, never
combined arithmetically).  The JS `Map` is modelled as an insertion-ordered
association list, mirroring the iteration-order guarantee of ECMAScript
maps.  `Array.prototype.sort` is stable (ES2019), so it is modelled by the
stable `List.insertionSort`.
-/

namespace GnssRelay

/-- `TTL_MS` from `server/state.js`: data older than 5 s is considered stale. -/
def TTL_MS : Nat := 5000

/-- One decoded observables sample as built by `handleObsUdp` in
`server/udp_handlers.js` (the object literal with `type:"observables"`). -/
structure Sample where
  type : String
  timestamp : Nat
  system : String
  signal : String
  channel_id : Nat
  prn : Nat
  cn0_db_hz : Int
  doppler_hz : Int
deriving DecidableEq, Repr

/-- A sample as stored in `obs_by_channel`: the spread
`\x7b ...s, _received_at: now \x7d` in `updateLatestObservables`. -/
structure StoredSample extends Sample where
  _received_at : Nat
deriving DecidableEq, Repr

/-- The PVT message object built by `handlePvtUdp` in
`server/udp_handlers.js` and stored by `setLatestPvt`. -/
structure PvtMsg where
  type : String
  timestamp : Nat
  week : Nat
  tow_ms : Nat
  rx_time : Int
  lat : Int
  lon : Int
  height : Int
  pos_x : Int
  pos_y : Int
  pos_z : Int
  vel_x : Int
  vel_y : Int
  vel_z : Int
  vel_e : Int
  vel_n : Int
  vel_u : Int
  valid_sats : Nat
  solution_status : Int
  solution_type : Int
  gdop : Int
  pdop : Int
  hdop : Int
  vdop : Int
deriving DecidableEq, Repr

/-- One entry of a decoded `gnss_sdr.Observables` protobuf message
(field names as accessed in `handleObsUdp`). -/
structure RawObservable where
  system : String
  signal : String
  channelId : Nat
  prn : Nat
  cn0DbHz : Int
  carrierDopplerHz : Int
  fs : Int
deriving DecidableEq, Repr

/-- A decoded `gnss_sdr.MonitorPvt` protobuf message
(field names as accessed in `handlePvtUdp`). -/
structure MonitorPvt where
  week : Nat
  towAtCurrentSymbolMs : Nat
  rxTime : Int
  latitude : Int
  longitude : Int
  height : Int
  posX : Int
  posY : Int
  posZ : Int
  velX : Int
  velY : Int
  velZ : Int
  velE : Int
  velN : Int
  velU : Int
  validSats : Nat
  solutionStatus : Int
  solutionType : Int
  gdop : Int
  pdop : Int
  hdop : Int
  vdop : Int
deriving DecidableEq, Repr

/-- The `latest` object of `server/state.js`.  `obs_by_channel` is a JS
`Map` keyed by `channel_id`, modelled as an insertion-ordered association
list with pairwise-distinct keys. -/
structure GnssState where
  pvt : Option PvtMsg
  pvt_timestamp : Nat
  obs_by_channel : List (Nat × StoredSample)
  obs_last_update_ms : Nat
deriving DecidableEq, Repr

/-- The initial value of `latest` in `server/state.js`. -/
def latest0 : GnssState :=
  { pvt := none, pvt_timestamp := 0, obs_by_channel := [], obs_last_update_ms := 0 }

/-- `Map.prototype.set`: replaces the value in place when the key exists
(keeping its position in iteration order), otherwise appends. -/
def mapSet (m : List (Nat × StoredSample)) (k : Nat) (v : StoredSample) :
    List (Nat × StoredSample) :=
  match m with
  | [] => [(k, v)]
  | (k1, v1) :: rest => if k1 = k then (k, v) :: rest else (k1, v1) :: mapSet rest k v

/-- `Map.prototype.get`. -/
def mapGet (m : List (Nat × StoredSample)) (k : Nat) : Option StoredSample :=
  match m with
  | [] => none
  | (k1, v1) :: rest => if k1 = k then some v1 else mapGet rest k

/-- `setLatestPvt` from `server/state.js`: overwrite the single PVT slot
and record the receipt time. -/
def setLatestPvt (msg : PvtMsg) (now : Nat) (st : GnssState) : GnssState :=
  { st with pvt := some msg, pvt_timestamp := now }

/-- The spread `\x7b ...s, _received_at: now \x7d` in
`updateLatestObservables`. -/
def storeSample (now : Nat) (s : Sample) : StoredSample :=
  { s with _received_at := now }

/-- `updateLatestObservables` from `server/state.js`.  The JS guards
(`Array.isArray(samples)`, `typeof s.channel_id === "number"`) always hold
under the typed model, so the loop is a fold of `Map.set` calls. -/
def updateLatestObservables (samples : List Sample) (now : Nat) (st : GnssState) :
    GnssState :=
  { st with
    obs_by_channel :=
      samples.foldl (fun m s => mapSet m s.channel_id (storeSample now s))
        st.obs_by_channel,
    obs_last_update_ms := now }

/-- `getLatestPvt` from `server/state.js`: `null` when no fix was ever
stored or when the slot is stale (`Date.now() - pvt_timestamp > TTL_MS`).
On `Nat`, `now - ts` agrees observably with the JS number subtraction:
a negative JS difference and a truncated-to-0 `Nat` difference both fail
the `> TTL_MS` test. -/
def getLatestPvt (now : Nat) (st : GnssState) : Option PvtMsg :=
  match st.pvt with
  | none => none
  | some p => if now - st.pvt_timestamp > TTL_MS then none else some p

/-- The comparator `(a, b) => (b.cn0_db_hz ?? 0) - (a.cn0_db_hz ?? 0)` of
`getLatestObservables`: element `a` may precede `b` exactly when
`b.cn0_db_hz ≤ a.cn0_db_hz` (descending CN0).  `cn0_db_hz` is always
present on stored samples, so `?? 0` is the identity. -/
def cn0Desc (a b : StoredSample) : Prop := b.cn0_db_hz ≤ a.cn0_db_hz

instance : DecidableRel cn0Desc := fun a b =>
  inferInstanceAs (Decidable (b.cn0_db_hz ≤ a.cn0_db_hz))

instance : IsTotal StoredSample cn0Desc :=
  ⟨fun a b => le_total b.cn0_db_hz a.cn0_db_hz⟩

instance : IsTrans StoredSample cn0Desc :=
  ⟨fun _ _ _ hab hbc => le_trans hbc hab⟩

/-- The freshness test `now - s._received_at < TTL_MS` of
`getLatestObservables`, on one map entry. -/
def freshAt (now : Nat) (e : Nat × StoredSample) : Bool :=
  now - e.2._received_at < TTL_MS

/-- `getLatestObservables` from `server/state.js`.  Iterates the map in
insertion order, keeping fresh entries and deleting stale ones (lazy
eviction); sorts the kept values by descending CN0 with the stable JS
`Array.prototype.sort`; `limit ? activeObs.slice(0, limit) : activeObs`
slices only when `limit` is truthy (nonzero).  Returns the result list and
the updated store. -/
def getLatestObservables (limit : Nat) (now : Nat) (st : GnssState) :
    List StoredSample × GnssState :=
  let kept := st.obs_by_channel.filter (freshAt now)
  let activeObs := List.insertionSort cn0Desc (kept.map Prod.snd)
  (if limit = 0 then activeObs else activeObs.take limit,
   { st with obs_by_channel := kept })

/-- The record returned by `getLatestObservablesMeta`. -/
structure ObsMeta where
  count : Nat
  pvt_age_ms : Nat
  obs_age_ms : Nat
  is_live : Bool
deriving DecidableEq, Repr

/-- `getLatestObservablesMeta` from `server/state.js`.  `count` is
`latest.obs_by_channel.size` (the whole map, stale entries included);
`is_live` is `now - latest.pvt_timestamp < TTL_MS`. -/
def getLatestObservablesMeta (now : Nat) (st : GnssState) : ObsMeta :=
  { count := st.obs_by_channel.length,
    pvt_age_ms := now - st.pvt_timestamp,
    obs_age_ms := now - st.obs_last_update_ms,
    is_live := decide (now - st.pvt_timestamp < TTL_MS) }

/-- A message handed to `broadcast` by the UDP handlers: either one
observables batch (`handleObsUdp` broadcasts the whole `samples` array) or
one PVT message. -/
inductive PubMsg where
  | obsBatch (samples : List Sample)
  | pvtMsg (msg : PvtMsg)
deriving DecidableEq, Repr

/-- The per-entry mapping in `handleObsUdp` (the `.map((s) => ...)`
object literal). -/
def toSample (now : Nat) (s : RawObservable) : Sample :=
  { type := "observables", timestamp := now, system := s.system,
    signal := s.signal, channel_id := s.channelId, prn := s.prn,
    cn0_db_hz := s.cn0DbHz, doppler_hz := s.carrierDopplerHz }

/-- `handleObsUdp` from `server/udp_handlers.js`, taking the result of
`ObservablesMsg.decode` (`none` models a thrown decode error, which the
handler catches, logs and drops).  Entries with `fs === 0` are filtered
out; the handler records and broadcasts only when the filtered batch is
nonempty.  Returns the new store state and the list of broadcast calls. -/
def handleObsUdp (decoded : Option (List RawObservable)) (now : Nat)
    (st : GnssState) : GnssState × List PubMsg :=
  match decoded with
  | none => (st, [])
  | some obs =>
    let samples := (obs.filter (fun s => s.fs != 0)).map (toSample now)
    if samples.length ≠ 0 then
      (updateLatestObservables samples now st, [PubMsg.obsBatch samples])
    else (st, [])

/-- The message object built by `handlePvtUdp`. -/
def toPvtMsg (now : Nat) (p : MonitorPvt) : PvtMsg :=
  { type := "pvt", timestamp := now, week := p.week,
    tow_ms := p.towAtCurrentSymbolMs, rx_time := p.rxTime,
    lat := p.latitude, lon := p.longitude, height := p.height,
    pos_x := p.posX, pos_y := p.posY, pos_z := p.posZ,
    vel_x := p.velX, vel_y := p.velY, vel_z := p.velZ,
    vel_e := p.velE, vel_n := p.velN, vel_u := p.velU,
    valid_sats := p.validSats, solution_status := p.solutionStatus,
    solution_type := p.solutionType,
    gdop := p.gdop, pdop := p.pdop, hdop := p.hdop, vdop := p.vdop }

/-- `handlePvtUdp` from `server/udp_handlers.js`: on decode failure log
and drop; otherwise build the message, `setLatestPvt` it and broadcast
it. -/
def handlePvtUdp (decoded : Option MonitorPvt) (now : Nat) (st : GnssState) :
    GnssState × List PubMsg :=
  match decoded with
  | none => (st, [])
  | some pvt =>
    (setLatestPvt (toPvtMsg now pvt) now st, [PubMsg.pvtMsg (toPvtMsg now pvt)])

/-- One incoming datagram, as seen after the decode attempt of the
matching handler (`none` = the decode threw). -/
inductive Datagram where
  | obs (decoded : Option (List RawObservable))
  | pvt (decoded : Option MonitorPvt)
deriving DecidableEq, Repr

/-- Whether the decode of this datagram failed. -/
def decodeFailed : Datagram → Bool
  | .obs none => true
  | .pvt none => true
  | _ => false

/-- Dispatch of one datagram to its handler (the two `"message"`
listeners of `initUdpReceivers`). -/
def step (dg : Datagram) (now : Nat) (st : GnssState) : GnssState × List PubMsg :=
  match dg with
  | .obs d => handleObsUdp d now st
  | .pvt d => handlePvtUdp d now st

/-- Sequential processing of a list of timestamped datagrams, collecting
every broadcast call in order. -/
def run (ds : List (Nat × Datagram)) (st : GnssState) : GnssState × List PubMsg :=
  match ds with
  | [] => (st, [])
  | (now, dg) :: rest =>
    let r1 := step dg now st
    let r2 := run rest r1.1
    (r2.1, r1.2 ++ r2.2)

/-- `WebSocket.OPEN`. -/
def WS_OPEN : Nat := 1

/-- One entry of `wss.clients`.  `sendFails` models whether `ws.send`
throws for this client. -/
structure WsClient where
  readyState : Nat
  sendFails : Bool
deriving DecidableEq, Repr

/-- `ws.send(data)`: may throw (modelled as `Except.error`). -/
def wsSend (ws : WsClient) : Except String Unit :=
  if ws.sendFails then Except.error "send error" else Except.ok ()

/-- The `wss.clients.forEach` loop of `broadcast` in
`server/websocket.js`: skip non-OPEN clients; `try` the send and on a
thrown error log it (second component) instead of rethrowing.  Returns
(clients delivered to, clients whose send failed), front to back. -/
def broadcastRun : List WsClient → List WsClient × List WsClient
  | [] => ([], [])
  | ws :: rest =>
    let r := broadcastRun rest
    if ws.readyState = WS_OPEN then
      match wsSend ws with
      | Except.ok _ => (ws :: r.1, r.2)
      | Except.error _ => (r.1, ws :: r.2)
    else r

/-- The broadcaster's subscriber registry (`wss.clients`). -/
structure WsState where
  clients : List WsClient
deriving DecidableEq, Repr

/-- `broadcast` from `server/websocket.js`.  It iterates the client set
but never mutates it (the `catch` only logs), so the returned registry is
the input registry; the function is total — no error escapes to the
caller. -/
def broadcast (st : WsState) : WsState × List WsClient × List WsClient :=
  (st, broadcastRun st.clients)

/-- `Number(req.query.limit ?? 64)` in `server/server.js`, after the
`Number.isFinite` fallback: an absent query parameter means 64, a numeric
one is used as is. -/
def parseLimit (q : Option Nat) : Nat :=
  match q with
  | none => 64
  | some n => n

/-- The JSON body of `GET /api/latest/observables`. -/
structure ObsResponse where
  ok : Bool
  meta : ObsMeta
  observables : List StoredSample
deriving DecidableEq, Repr

/-- The `/api/latest/observables` route of `server/server.js`: read the
snapshot (which evicts stale entries), then the health metadata, and
answer `\x7b ok: true, meta, observables \x7d`. -/
def apiLatestObservables (q : Option Nat) (now : Nat) (st : GnssState) :
    ObsResponse × GnssState :=
  let r := getLatestObservables (parseLimit q) now st
  ({ ok := true, meta := getLatestObservablesMeta now r.2, observables := r.1 }, r.2)

/-! Concrete example values used by witnesses and counterexamples. -/

/-- A raw observables entry on channel 5 with a nonzero sampling rate. -/
def exRaw5 : RawObservable :=
  { system := "G", signal := "1C", channelId := 5, prn := 17,
    cn0DbHz := 42, carrierDopplerHz := 1200, fs := 4000000 }

/-- A raw observables entry on channel 5 with sampling rate 0 (an
inactive channel slot carrying garbage values). -/
def exRaw5zero : RawObservable :=
  { system := "G", signal := "1C", channelId := 5, prn := 0,
    cn0DbHz := 0, carrierDopplerHz := 0, fs := 0 }

/-- A decoded `MonitorPvt` with `validSats = 3`, `solutionStatus = 0`. -/
def exMonLow : MonitorPvt :=
  { week := 2310, towAtCurrentSymbolMs := 123000, rxTime := 123,
    latitude := 40, longitude := -3, height := 700,
    posX := 1, posY := 2, posZ := 3, velX := 0, velY := 0, velZ := 0,
    velE := 0, velN := 0, velU := 0,
    validSats := 3, solutionStatus := 0, solutionType := 0,
    gdop := 9, pdop := 8, hdop := 5, vdop := 6 }

/-- A decoded `MonitorPvt` with `validSats = 6`, `solutionStatus = 4`. -/
def exMonHigh : MonitorPvt :=
  { exMonLow with validSats := 6, solutionStatus := 4, solutionType := 1 }

/-- The stored message for `exMonLow` received at time 0. -/
def exPvtLow : PvtMsg := toPvtMsg 0 exMonLow

/-- A `Sample` on channel `c` with CN0 `cn0`, timestamped `ts`. -/
def mkSample (c : Nat) (cn0 : Int) (ts : Nat) : Sample :=
  { type := "observables", timestamp := ts, system := "G", signal := "1C",
    channel_id := c, prn := c + 10, cn0_db_hz := cn0, doppler_hz := 500 }

/-- Map-insertion order 7, 3, 5 with equal CN0 everywhere: a state whose
snapshot exposes the tie-breaking order of the sort. -/
def tieState : GnssState :=
  updateLatestObservables
    [mkSample 7 40 0, mkSample 3 40 0, mkSample 5 40 0] 0 latest0

/-- One entry received at t = 0 and one at t = 4000: at t = 5500 the
first is stale, the second fresh. -/
def mixState : GnssState :=
  updateLatestObservables [mkSample 9 35 4000]
    4000 (updateLatestObservables [mkSample 5 42 0] 0 latest0)

/-- A state holding only the channel-5 sample of `exRaw5`, received at
time 0 (datagram A of the spec example scenario in §8). -/
def stA : GnssState :=
  updateLatestObservables [toSample 0 exRaw5] 0 latest0

/-- An open WebSocket client whose sends succeed. -/
def wsGood : WsClient := { readyState := WS_OPEN, sendFails := false }

/-- An open WebSocket client whose `send` throws. -/
def wsBad : WsClient := { readyState := WS_OPEN, sendFails := true }

/-! Helper lemmas about the map model and the handlers. -/

theorem mem_mapSet_keys {m : List (Nat × StoredSample)} {k a : Nat}
    {v : StoredSample} :
    a ∈ (mapSet m k v).map Prod.fst ↔ a = k ∨ a ∈ m.map Prod.fst := by
  induction m with
  | nil => simp [mapSet]
  | cons e rest ih =>
    obtain ⟨k1, v1⟩ := e
    by_cases h : k1 = k
    · subst h
      simp [mapSet]
    · simp only [mapSet, if_neg h, List.map_cons, List.mem_cons, ih]
      tauto

theorem mapSet_keys_nodup {m : List (Nat × StoredSample)} {k : Nat}
    {v : StoredSample} (h : (m.map Prod.fst).Nodup) :
    ((mapSet m k v).map Prod.fst).Nodup := by
  induction m with
  | nil => simp [mapSet]
  | cons e rest ih =>
    obtain ⟨k1, v1⟩ := e
    simp only [List.map_cons, List.nodup_cons] at h
    by_cases hk : k1 = k
    · subst hk
      simpa [mapSet] using h
    · simp only [mapSet, if_neg hk, List.map_cons, List.nodup_cons,
        mem_mapSet_keys]
      exact ⟨fun hc => hc.elim hk h.1, ih h.2⟩

theorem foldl_mapSet_keys_nodup (samples : List Sample) (now : Nat)
    {m : List (Nat × StoredSample)} (h : (m.map Prod.fst).Nodup) :
    ((samples.foldl (fun m s => mapSet m s.channel_id (storeSample now s)) m).map
      Prod.fst).Nodup := by
  induction samples generalizing m with
  | nil => simpa using h
  | cons s rest ih => exact ih (mapSet_keys_nodup h)

theorem step_keys_nodup (dg : Datagram) (now : Nat) (st : GnssState)
    (h : (st.obs_by_channel.map Prod.fst).Nodup) :
    (((step dg now st).1.obs_by_channel).map Prod.fst).Nodup := by
  cases dg with
  | obs d =>
    cases d with
    | none => simpa [step, handleObsUdp] using h
    | some obs =>
      simp only [step, handleObsUdp]
      split
      · simpa [updateLatestObservables] using foldl_mapSet_keys_nodup _ now h
      · simpa using h
  | pvt d =>
    cases d with
    | none => simpa [step, handlePvtUdp] using h
    | some p => simpa [step, handlePvtUdp, setLatestPvt] using h

theorem run_keys_nodup (ds : List (Nat × Datagram)) (st : GnssState)
    (h : (st.obs_by_channel.map Prod.fst).Nodup) :
    (((run ds st).1.obs_by_channel).map Prod.fst).Nodup := by
  induction ds generalizing st with
  | nil => simpa [run] using h
  | cons e rest ih =>
    obtain ⟨now, dg⟩ := e
    simpa [run] using ih _ (step_keys_nodup dg now st h)

/-- Two entries of a map with pairwise-distinct keys that share a key are
the same entry. -/
theorem key_inj {l : List (Nat × StoredSample)}
    (h : (l.map Prod.fst).Nodup) {e1 e2 : Nat × StoredSample}
    (h1 : e1 ∈ l) (h2 : e2 ∈ l) (hk : e1.1 = e2.1) : e1 = e2 := by
  induction l with
  | nil => cases h1
  | cons a rest ih =>
    simp only [List.map_cons, List.nodup_cons] at h
    rcases List.mem_cons.mp h1 with rfl | h1m
    · rcases List.mem_cons.mp h2 with rfl | h2m
      · rfl
      · exact absurd (hk ▸ List.mem_map_of_mem Prod.fst h2m) h.1
    · rcases List.mem_cons.mp h2 with rfl | h2m
      · exact absurd (hk ▸ List.mem_map_of_mem Prod.fst h1m) h.1
      · exact ih h.2 h1m h2m

theorem mapGet_mapSet_ne {m : List (Nat × StoredSample)} {k c : Nat}
    (v : StoredSample) (h : k ≠ c) : mapGet (mapSet m k v) c = mapGet m c := by
  induction m with
  | nil => simp [mapSet, mapGet, h]
  | cons e rest ih =>
    obtain ⟨k1, v1⟩ := e
    by_cases hk : k1 = k
    · subst hk
      simp [mapSet, mapGet, h]
    · by_cases hc : k1 = c <;>
        simp [mapSet, mapGet, hk, hc, ih, h, Ne.symm h]

theorem mapGet_foldl_ne (ss : List Sample) (now c : Nat)
    {m : List (Nat × StoredSample)} (h : ∀ s ∈ ss, s.channel_id ≠ c) :
    mapGet (ss.foldl (fun m s => mapSet m s.channel_id (storeSample now s)) m) c
      = mapGet m c := by
  induction ss generalizing m with
  | nil => rfl
  | cons s rest ih =>
    have := ih (m := mapSet m s.channel_id (storeSample now s))
      (fun x hx => h x (List.mem_cons_of_mem s hx))
    simpa [this] using mapGet_mapSet_ne _ (h s (List.mem_cons_self s rest))

/-- A datagram whose decode failed is logged and dropped: the state is
untouched and nothing is broadcast. -/
theorem step_decodeFailed {dg : Datagram} (now : Nat) (st : GnssState)
    (h : decodeFailed dg = true) : step dg now st = (st, []) := by
  cases dg with
  | obs d => cases d with
    | none => rfl
    | some _ => simp [decodeFailed] at h
  | pvt d => cases d with
    | none => rfl
    | some _ => simp [decodeFailed] at h

/-- Stability of `orderedInsert`: filtering by a predicate whose holders
are mutually tied commutes with the insertion. -/
theorem filter_orderedInsert (p : StoredSample → Bool) (a : StoredSample)
    (l : List StoredSample)
    (hp : ∀ x y, p x = true → p y = true → cn0Desc x y) :
    (List.orderedInsert cn0Desc a l).filter p
      = if p a then a :: l.filter p else l.filter p := by
  induction l with
  | nil => cases hpa : p a <;> simp [List.orderedInsert, List.filter, hpa]
  | cons b rest ih =>
    by_cases hab : cn0Desc a b
    · simp only [List.orderedInsert, if_pos hab]
      cases hpa : p a <;> cases hpb : p b <;>
        simp [List.filter, hpa, hpb]
    · have hnot : ¬(p a = true ∧ p b = true) := fun ⟨ha, hb⟩ => hab (hp a b ha hb)
      simp only [List.orderedInsert, if_neg hab]
      cases hpa : p a <;> cases hpb : p b <;>
        simp_all [List.filter, ih]

/-- Stability of the snapshot sort: within one CN0 tie class, the sort
preserves the map insertion order exactly. -/
theorem filter_insertionSort (p : StoredSample → Bool)
    (hp : ∀ x y, p x = true → p y = true → cn0Desc x y)
    (l : List StoredSample) :
    (List.insertionSort cn0Desc l).filter p = l.filter p := by
  induction l with
  | nil => rfl
  | cons a rest ih =>
    by_cases ha : p a = true <;>
      simp [List.insertionSort, filter_orderedInsert p a _ hp, ha, ih,
        List.filter]

/-- Sorting a two-element list keeps or swaps the pair. -/
theorem insertionSort_pair (b c : StoredSample) :
    List.insertionSort cn0Desc [b, c] = [b, c] ∨
    List.insertionSort cn0Desc [b, c] = [c, b] := by
  simp only [List.insertionSort, List.orderedInsert_nil, List.orderedInsert]
  by_cases hbc : cn0Desc b c
  · left
    rw [if_pos hbc]
  · right
    rw [if_neg hbc]

/-! Claim theorems. -/

/-- C2: a datagram whose decode fails is logged and dropped without
modifying the state store and without publishing anything, and a
malformed datagram between two valid ones has no effect on the recording
or publishing of either valid one: deleting it from the processed
sequence changes neither the final state nor the broadcast trace. -/
theorem C2_decode_failure_isolation (dg : Datagram) (t : Nat) (st : GnssState)
    (xs ys : List (Nat × Datagram)) (h : decodeFailed dg = true) :
    step dg t st = (st, []) ∧
    run (xs ++ (t, dg) :: ys) st = run (xs ++ ys) st := by
  refine ⟨step_decodeFailed t st h, ?_⟩
  induction xs generalizing st with
  | nil => simp [run, step_decodeFailed t st h]
  | cons e rest ih =>
    obtain ⟨n, d⟩ := e
    simp [run, ih]

/-- Witness for C2: a PVT datagram, a malformed observables datagram and
a valid observables datagram processed in sequence give the same state
and broadcasts as without the malformed one. -/
theorem C2_witness :
    decodeFailed (Datagram.obs none) = true ∧
    run [(0, Datagram.pvt (some exMonLow)), (1, Datagram.obs none),
        (2, Datagram.obs (some [exRaw5]))] latest0
      = run [(0, Datagram.pvt (some exMonLow)),
        (2, Datagram.obs (some [exRaw5]))] latest0 :=
  ⟨rfl,
   (C2_decode_failure_isolation (Datagram.obs none) 1 latest0
      [(0, Datagram.pvt (some exMonLow))] [(2, Datagram.obs (some [exRaw5]))]
      rfl).2⟩

/-- C3: entries whose sampling-rate field `fs` is zero are discarded
before recording and before broadcasting.  If every batch entry for
channel `c` has `fs = 0` then no broadcast sample carries channel `c`,
the stored entry for channel `c` is untouched (a zero-rate sample never
overwrites a previously recorded one), and an all-zero batch leaves the
handler with no effect at all. -/
theorem C3_zero_rate_filtering (obs : List RawObservable) (now : Nat)
    (st : GnssState) (c : Nat)
    (hc : ∀ r ∈ obs, r.channelId = c → r.fs = 0) :
    (∀ b, PubMsg.obsBatch b ∈ (handleObsUdp (some obs) now st).2 →
      ∀ x ∈ b, x.channel_id ≠ c) ∧
    mapGet (handleObsUdp (some obs) now st).1.obs_by_channel c
      = mapGet st.obs_by_channel c ∧
    ((∀ r ∈ obs, r.fs = 0) → handleObsUdp (some obs) now st = (st, [])) := by
  have hkey : ∀ x ∈ (obs.filter (fun s => s.fs != 0)).map (toSample now),
      x.channel_id ≠ c := by
    intro x hx
    obtain ⟨r, hr, rfl⟩ := List.mem_map.mp hx
    have hmf := List.mem_filter.mp hr
    intro hcc
    have h0 := hc r hmf.1 hcc
    simp [h0] at hmf
  refine ⟨?_, ?_, ?_⟩
  · intro b hb x hxb
    simp only [handleObsUdp] at hb
    split at hb
    · simp only [List.mem_singleton, PubMsg.obsBatch.injEq] at hb
      exact hkey x (hb ▸ hxb)
    · simp at hb
  · simp only [handleObsUdp]
    split
    · simpa [updateLatestObservables] using mapGet_foldl_ne _ now c hkey
    · rfl
  · intro hall
    have hfil : obs.filter (fun s => s.fs != 0) = [] :=
      List.filter_eq_nil_iff.mpr (fun r hr => by simp [hall r hr])
    simp [handleObsUdp, hfil]

/-- Witness for C3: the spec §8 scenario — datagram A records channel 5
with CN0 42 at t = 0; a zero-rate batch for channel 5 at t = 1000 leaves
the stored entry standing. -/
theorem C3_witness :
    (∀ r ∈ [exRaw5zero], r.channelId = 5 → r.fs = 0) ∧
    mapGet (handleObsUdp (some [exRaw5zero]) 1000 stA).1.obs_by_channel 5
      = mapGet stA.obs_by_channel 5 ∧
    mapGet stA.obs_by_channel 5 = some (storeSample 0 (toSample 0 exRaw5)) :=
  ⟨by decide,
   (C3_zero_rate_filtering [exRaw5zero] 1000 stA 5 (by decide)).2.1,
   by decide⟩

/-- C5 counterexample: the claim says a fresh fix with `valid_sats = 3`
and `solution_status = 0` makes the health summary report
`is_live = false`; the code derives `is_live` from PVT freshness alone,
so it reports `true`. -/
theorem C5_counterexample :
    exPvtLow.valid_sats = 3 ∧ exPvtLow.solution_status = 0 ∧
    (getLatestObservablesMeta 0 (setLatestPvt exPvtLow 0 latest0)).is_live
      = true := by
  decide

/-- C5 (amended): `is_live` is derived from PVT freshness alone — after
recording any fix (including one with `valid_sats = 3`,
`solution_status = 0`, and the later `valid_sats = 6`,
`solution_status = 4` one) the summary reports `is_live = true` exactly
while the slot is fresh, regardless of the fix contents. -/
theorem C5_amended_is_live (msg : PvtMsg) (t now : Nat) (st : GnssState) :
    (getLatestObservablesMeta now (setLatestPvt msg t st)).is_live
      = decide (now - t < TTL_MS) := rfl

/-- C6 counterexample: a channel recorded at t = 0 and queried at
t = 6000 without an intervening snapshot read is stale but still counted:
`count = 1` while the number of fresh channels is 0. -/
theorem C6_counterexample :
    (getLatestObservablesMeta 6000 stA).count = 1 ∧
    (stA.obs_by_channel.filter (freshAt 6000)).length = 0 := by
  decide

/-- C6 (amended): `count` is the total size of the per-channel map,
stale not-yet-evicted entries included; it equals the number of
currently-fresh channels only right after an eviction pass — in
particular the `/api/latest/observables` route, which reads the snapshot
before the summary, always reports the fresh-channel count. -/
theorem C6_amended_count (now lim : Nat) (q : Option Nat) (st : GnssState) :
    (getLatestObservablesMeta now st).count = st.obs_by_channel.length ∧
    (getLatestObservablesMeta now (getLatestObservables lim now st).2).count
      = (st.obs_by_channel.filter (freshAt now)).length ∧
    (apiLatestObservables q now st).1.meta.count
      = (st.obs_by_channel.filter (freshAt now)).length :=
  ⟨rfl, rfl, rfl⟩

/-- C9 counterexample: with clients [good, bad, good] the send to the
bad client fails, delivery still reaches both good clients, but the bad
client is NOT removed: the subscriber set after `broadcast` is
unchanged, contradicting the claim's removal requirement. -/
theorem C9_counterexample :
    wsSend wsBad = Except.error "send error" ∧
    (broadcast ⟨[wsGood, wsBad, wsGood]⟩).2.1 = [wsGood, wsGood] ∧
    (broadcast ⟨[wsGood, wsBad, wsGood]⟩).1.clients
      = [wsGood, wsBad, wsGood] ∧
    wsBad ∈ (broadcast ⟨[wsGood, wsBad, wsGood]⟩).1.clients := by
  refine ⟨rfl, by decide, rfl, by decide⟩

/-- C9 (amended): when delivery to one subscriber fails, `broadcast`
still delivers to every other OPEN subscriber, catches the error locally
(never propagating it — the model is a total function), and leaves the
subscriber set unchanged: the failed subscriber is logged, not removed. -/
theorem C9_amended_broadcast (cs : List WsClient) :
    (broadcast ⟨cs⟩).1.clients = cs ∧
    (broadcast ⟨cs⟩).2.1
      = cs.filter (fun c => c.readyState == WS_OPEN && !c.sendFails) ∧
    (broadcast ⟨cs⟩).2.2
      = cs.filter (fun c => c.readyState == WS_OPEN && c.sendFails) := by
  refine ⟨rfl, ?_, ?_⟩ <;>
  · simp only [broadcast]
    induction cs with
    | nil => rfl
    | cons c rest ih =>
      by_cases h1 : c.readyState = WS_OPEN
      · have hb1 : (c.readyState == WS_OPEN) = true := by simp [h1]
        cases h2 : c.sendFails <;>
          simp [broadcastRun, wsSend, h1, h2, hb1, ih, List.filter]
      · have hb1 : (c.readyState == WS_OPEN) = false := by simp [h1]
        cases h2 : c.sendFails <;>
          simp [broadcastRun, wsSend, h1, h2, hb1, ih, List.filter]

/-- C10: a limit of 0 is falsy in `limit ? activeObs.slice(0, limit) :
activeObs`, so `getLatestObservables` with limit 0 — reachable through
`GET /api/latest/observables?limit=0` — returns the entire unsliced
fresh snapshot (a permutation of all fresh entries), while any nonzero
limit truncates the sorted list. -/
theorem C10_limit_zero_unsliced (now : Nat) (st : GnssState) :
    ((getLatestObservables 0 now st).1).Perm
      ((st.obs_by_channel.filter (freshAt now)).map Prod.snd) ∧
    (getLatestObservables 0 now st).1.length
      = (st.obs_by_channel.filter (freshAt now)).length ∧
    (apiLatestObservables (some 0) now st).1.observables
      = (getLatestObservables 0 now st).1 ∧
    ∀ n, n ≠ 0 → (getLatestObservables n now st).1
      = (List.insertionSort cn0Desc
          ((st.obs_by_channel.filter (freshAt now)).map Prod.snd)).take n := by
  refine ⟨?_, ?_, rfl, ?_⟩
  · simpa [getLatestObservables] using
      List.perm_insertionSort cn0Desc
        ((st.obs_by_channel.filter (freshAt now)).map Prod.snd)
  · simp [getLatestObservables]
  · intro n hn
    simp [getLatestObservables, hn]

/-- Witness for C10: on a concrete three-channel state, limit 0 yields
all three fresh entries while limit 2 truncates. -/
theorem C10_witness :
    (getLatestObservables 0 0 tieState).1.length
      = (tieState.obs_by_channel.filter (freshAt 0)).length ∧
    (getLatestObservables 2 0 tieState).1
      = (List.insertionSort cn0Desc
          ((tieState.obs_by_channel.filter (freshAt 0)).map Prod.snd)).take 2 :=
  ⟨(C10_limit_zero_unsliced 0 tieState).2.1,
   (C10_limit_zero_unsliced 0 tieState).2.2.2 2 (by decide)⟩

/-- C1: staleness.  A PVT fix recorded at time t is returned by
`getLatestPvt` at t + TTL − ε and is `none` at t + TTL + ε; the
never-received state also yields `none` (indistinguishable from stale).
An observables sample received at time t is absent from every snapshot
taken at t + TTL + ε (for any limit) and present in the unsliced
snapshot at t + TTL − ε. -/
theorem C1_staleness (p : PvtMsg) (t eps lim : Nat) (st st2 : GnssState)
    (k : Nat) (v : StoredSample)
    (heps : 0 < eps) (hle : eps ≤ TTL_MS)
    (hmem : (k, v) ∈ st2.obs_by_channel) (hrec : v._received_at = t) :
    getLatestPvt (t + TTL_MS + eps) (setLatestPvt p t st) = none ∧
    getLatestPvt (t + TTL_MS - eps) (setLatestPvt p t st) = some p ∧
    (∀ now, getLatestPvt now latest0 = none) ∧
    (∀ e ∈ (getLatestObservables lim (t + TTL_MS + eps) st2).1,
      e._received_at ≠ t) ∧
    v ∈ (getLatestObservables 0 (t + TTL_MS - eps) st2).1 := by
  refine ⟨?_, ?_, fun now => rfl, ?_, ?_⟩
  · simp only [setLatestPvt, getLatestPvt]
    rw [if_pos (by omega)]
  · simp only [setLatestPvt, getLatestPvt]
    rw [if_neg (by omega)]
  · intro e he hcontra
    have hmem2 : e ∈ List.insertionSort cn0Desc
        ((st2.obs_by_channel.filter (freshAt (t + TTL_MS + eps))).map
          Prod.snd) := by
      simp only [getLatestObservables] at he
      by_cases hlim : lim = 0
      · simpa [hlim] using he
      · rw [if_neg hlim] at he
        exact (List.take_sublist _ _).subset he
    rw [List.mem_insertionSort] at hmem2
    obtain ⟨pair, hpair, rfl⟩ := List.mem_map.mp hmem2
    have hf := (List.mem_filter.mp hpair).2
    simp only [freshAt, decide_eq_true_eq] at hf
    omega
  · have hfresh : freshAt (t + TTL_MS - eps) (k, v) = true := by
      simp only [freshAt, hrec, decide_eq_true_eq]
      omega
    have hv : v ∈ (st2.obs_by_channel.filter
        (freshAt (t + TTL_MS - eps))).map Prod.snd :=
      List.mem_map_of_mem Prod.snd (List.mem_filter.mpr ⟨hmem, hfresh⟩)
    simpa [getLatestObservables] using hv

/-- Witness for C1 with t = 0, ε = 1: the fix is gone at 5001 ms, still
there at 4999 ms, and the channel-7 sample received at 0 is in the
unsliced snapshot at 4999 ms. -/
theorem C1_witness :
    getLatestPvt 5001 (setLatestPvt exPvtLow 0 latest0) = none ∧
    getLatestPvt 4999 (setLatestPvt exPvtLow 0 latest0) = some exPvtLow ∧
    storeSample 0 (mkSample 7 40 0) ∈ (getLatestObservables 0 4999 tieState).1 :=
  ⟨(C1_staleness exPvtLow 0 1 64 latest0 tieState 7 (storeSample 0 (mkSample 7 40 0))
      (by decide) (by decide) (by decide) rfl).1,
   (C1_staleness exPvtLow 0 1 64 latest0 tieState 7 (storeSample 0 (mkSample 7 40 0))
      (by decide) (by decide) (by decide) rfl).2.1,
   (C1_staleness exPvtLow 0 1 64 latest0 tieState 7 (storeSample 0 (mkSample 7 40 0))
      (by decide) (by decide) (by decide) rfl).2.2.2.2⟩

/-- C4: the store keeps at most one PVT fix and at most one entry per
channel id, last-write-wins.  Two PVT fixes in sequence leave only the
second retrievable; samples for channel 3 twice then channel 7 once
leave exactly the two entries keyed 3 and 7 (the channel-3 slot holding
the second sample), whose snapshot has exactly the channel ids 3 and 7;
and every state reachable by processing datagrams from the initial state
has pairwise-distinct channel keys. -/
theorem C4_last_write_wins (m1 m2 : PvtMsg) (t1 t2 now : Nat) (st : GnssState)
    (s3a s3b s7 : Sample) (u1 u2 u3 tq : Nat)
    (h3a : s3a.channel_id = 3) (h3b : s3b.channel_id = 3)
    (h7 : s7.channel_id = 7)
    (hf2 : tq - u2 < TTL_MS) (hf3 : tq - u3 < TTL_MS)
    (hfresh : now - t2 ≤ TTL_MS) :
    (setLatestPvt m2 t2 (setLatestPvt m1 t1 st)).pvt = some m2 ∧
    getLatestPvt now (setLatestPvt m2 t2 (setLatestPvt m1 t1 st)) = some m2 ∧
    (updateLatestObservables [s7] u3 (updateLatestObservables [s3b] u2
        (updateLatestObservables [s3a] u1 latest0))).obs_by_channel
      = [(3, storeSample u2 s3b), (7, storeSample u3 s7)] ∧
    ((getLatestObservables 64 tq (updateLatestObservables [s7] u3
        (updateLatestObservables [s3b] u2
          (updateLatestObservables [s3a] u1 latest0)))).1.map
        (fun e => e.channel_id)).Perm [3, 7] ∧
    (∀ ds : List (Nat × Datagram),
      (((run ds latest0).1.obs_by_channel).map Prod.fst).Nodup) := by
  have hmap : (updateLatestObservables [s7] u3 (updateLatestObservables [s3b] u2
      (updateLatestObservables [s3a] u1 latest0))).obs_by_channel
      = [(3, storeSample u2 s3b), (7, storeSample u3 s7)] := by
    simp [updateLatestObservables, latest0, mapSet, h3a, h3b, h7]
  refine ⟨rfl, ?_, hmap, ?_, ?_⟩
  · simp only [setLatestPvt, getLatestPvt]
    rw [if_neg (by omega)]
  · have hfr2 : freshAt tq (3, storeSample u2 s3b) = true := by
      simp only [freshAt, storeSample, decide_eq_true_eq]
      exact hf2
    have hfr3 : freshAt tq (7, storeSample u3 s7) = true := by
      simp only [freshAt, storeSample, decide_eq_true_eq]
      exact hf3
    have hid3 : (storeSample u2 s3b).channel_id = 3 := h3b
    have hid7 : (storeSample u3 s7).channel_id = 7 := h7
    rcases insertionSort_pair (storeSample u2 s3b) (storeSample u3 s7) with
      hseq | hseq <;>
      · simp only [getLatestObservables, hmap, List.filter, hfr2, hfr3,
          List.map_cons, List.map_nil, hseq, hid3, hid7]
        simp [hid3, hid7]
        try exact List.Perm.swap 3 7 []
  · intro ds
    exact run_keys_nodup ds latest0 (by simp [latest0])

/-- Witness for C4: concrete fixes and samples. -/
theorem C4_witness :
    getLatestPvt 2 (setLatestPvt (toPvtMsg 1 exMonHigh) 1
        (setLatestPvt exPvtLow 0 latest0)) = some (toPvtMsg 1 exMonHigh) ∧
    (updateLatestObservables [mkSample 7 28 9] 9
        (updateLatestObservables [mkSample 3 31 5] 5
          (updateLatestObservables [mkSample 3 30 0] 0
            latest0))).obs_by_channel
      = [(3, storeSample 5 (mkSample 3 31 5)),
         (7, storeSample 9 (mkSample 7 28 9))] :=
  ⟨(C4_last_write_wins exPvtLow (toPvtMsg 1 exMonHigh) 0 1 2 latest0
      (mkSample 3 30 0) (mkSample 3 31 5) (mkSample 7 28 9) 0 5 9 10
      rfl rfl rfl (by decide) (by decide) (by decide)).2.1,
   (C4_last_write_wins exPvtLow (toPvtMsg 1 exMonHigh) 0 1 2 latest0
      (mkSample 3 30 0) (mkSample 3 31 5) (mkSample 7 28 9) 0 5 9 10
      rfl rfl rfl (by decide) (by decide) (by decide)).2.2.1⟩

/-- C7 counterexample: three channels inserted in order 7, 3, 5, all
with the same CN0.  The snapshot keeps the stable sort's insertion order
[7, 3, 5], which is neither ascending nor descending in channel id —
ties are NOT ordered by channel id. -/
theorem C7_counterexample :
    ((getLatestObservables 64 0 tieState).1.map (fun e => e.channel_id))
      = [7, 3, 5] ∧
    (∀ e ∈ (getLatestObservables 64 0 tieState).1, e.cn0_db_hz = 40) ∧
    ¬ List.Pairwise (fun a b : Nat => a ≤ b) [7, 3, 5] ∧
    ¬ List.Pairwise (fun a b : Nat => b ≤ a) [7, 3, 5] := by
  decide

/-- C7 (amended): every observables snapshot is sorted by descending
`cn0_db_hz`; entries with equal `cn0_db_hz` keep their map insertion
order (the JS sort is stable): within any tie class the unsliced
snapshot lists exactly the fresh map entries in map order. -/
theorem C7_amended_sort (lim now : Nat) (st : GnssState) (c : Int) :
    List.Sorted cn0Desc (getLatestObservables lim now st).1 ∧
    (getLatestObservables 0 now st).1.filter (fun e => e.cn0_db_hz == c)
      = ((st.obs_by_channel.filter (freshAt now)).map Prod.snd).filter
          (fun e => e.cn0_db_hz == c) := by
  constructor
  · have hs := List.sorted_insertionSort cn0Desc
      ((st.obs_by_channel.filter (freshAt now)).map Prod.snd)
    simp only [getLatestObservables]
    split
    · exact hs
    · exact List.Pairwise.sublist (List.take_sublist _ _) hs
  · have hp : ∀ x y : StoredSample, (x.cn0_db_hz == c) = true →
        (y.cn0_db_hz == c) = true → cn0Desc x y := by
      intro x y hx hy
      simp only [beq_iff_eq] at hx hy
      simp [cn0Desc, hx, hy]
    simpa [getLatestObservables] using
      filter_insertionSort (fun e => e.cn0_db_hz == c) hp
        ((st.obs_by_channel.filter (freshAt now)).map Prod.snd)

/-- C8: reading the snapshot evicts exactly the stale entries.  The
per-channel map afterwards is the fresh-filtered map: every entry whose
age reached the TTL is gone (its key no longer present), every fresh
entry remains unchanged, the PVT slot and the other fields are
untouched, the surviving keys are pairwise distinct and each channel
appears at most once in the returned list. -/
theorem C8_lazy_eviction (lim now : Nat) (st : GnssState)
    (hnodup : (st.obs_by_channel.map Prod.fst).Nodup)
    (hkv : ∀ e ∈ st.obs_by_channel, e.2.channel_id = e.1) :
    (getLatestObservables lim now st).2.obs_by_channel
      = st.obs_by_channel.filter (freshAt now) ∧
    (getLatestObservables lim now st).2.pvt = st.pvt ∧
    (getLatestObservables lim now st).2.pvt_timestamp = st.pvt_timestamp ∧
    (getLatestObservables lim now st).2.obs_last_update_ms
      = st.obs_last_update_ms ∧
    (∀ e ∈ st.obs_by_channel, freshAt now e = false →
      e.1 ∉ ((getLatestObservables lim now st).2.obs_by_channel.map
        Prod.fst)) ∧
    (∀ e ∈ st.obs_by_channel, freshAt now e = true →
      e ∈ (getLatestObservables lim now st).2.obs_by_channel) ∧
    ((getLatestObservables lim now st).2.obs_by_channel.map Prod.fst).Nodup ∧
    ((getLatestObservables lim now st).1.map (fun e => e.channel_id)).Nodup := by
  have hmap : (getLatestObservables lim now st).2.obs_by_channel
      = st.obs_by_channel.filter (freshAt now) := rfl
  have hkeysnd : (((st.obs_by_channel.filter (freshAt now)).map Prod.snd).map
      (fun e => e.channel_id)).Nodup := by
    have hone : ((st.obs_by_channel.filter (freshAt now)).map Prod.snd).map
        (fun e => e.channel_id)
        = (st.obs_by_channel.filter (freshAt now)).map Prod.fst := by
      rw [List.map_map]
      exact List.map_congr_left
        (fun e he => hkv e (List.mem_filter.mp he).1)
    rw [hone]
    exact List.Nodup.sublist
      (List.Sublist.map Prod.fst (List.filter_sublist _)) hnodup
  refine ⟨hmap, rfl, rfl, rfl, ?_, ?_, ?_, ?_⟩
  · intro e he hstale hcmem
    rw [hmap] at hcmem
    obtain ⟨e2, he2, hk⟩ := List.mem_map.mp hcmem
    have h2 := List.mem_filter.mp he2
    have heq : e2 = e := key_inj hnodup h2.1 he hk
    rw [heq, hstale] at h2
    exact absurd h2.2 (by simp)
  · intro e he hf
    rw [hmap]
    exact List.mem_filter.mpr ⟨he, hf⟩
  · rw [hmap]
    exact List.Nodup.sublist
      (List.Sublist.map Prod.fst (List.filter_sublist _)) hnodup
  · have hsorted : ((List.insertionSort cn0Desc
        ((st.obs_by_channel.filter (freshAt now)).map Prod.snd)).map
        (fun e => e.channel_id)).Nodup :=
      (((List.perm_insertionSort cn0Desc _).map
        (fun e => e.channel_id)).nodup_iff).mpr hkeysnd
    simp only [getLatestObservables]
    split
    · exact hsorted
    · exact List.Nodup.sublist
        (List.Sublist.map _ (List.take_sublist _ _)) hsorted

/-- Witness for C8: a state with a stale channel-5 entry and a fresh
channel-9 entry read at t = 5500. -/
theorem C8_witness :
    (mixState.obs_by_channel.map Prod.fst).Nodup ∧
    (getLatestObservables 64 5500 mixState).2.obs_by_channel
      = mixState.obs_by_channel.filter (freshAt 5500) ∧
    ((getLatestObservables 64 5500 mixState).1.map
      (fun e => e.channel_id)).Nodup :=
  ⟨by decide,
   (C8_lazy_eviction 64 5500 mixState (by decide) (by decide)).1,
   (C8_lazy_eviction 64 5500 mixState (by decide)
      (by decide)).2.2.2.2.2.2.2⟩

end GnssRelay
